import Mathlib

/-!
# params/confp/generic

A shallow embedding of `params/confp/generic/generic.go`: the adapter
`GenericCC` with its query `DAOSupport`, the three schema marker lists, the
dispatching decoder `UnmarshalChainConfigurator` and its helper
`asMapHasAnyKey`.

The file imports declarations it does not own (the three configuration struct
types, the `ChainConfigurator` interface, `vars.DAORefundContract`,
`vars.DAODrainList`, `gjson`, `encoding/json`).  They are taken as parameters:
`Decls` collects the types, `Env` the functions and constants.
-/

set_option autoImplicit false

/-- The Go type `[]byte`. -/
abbrev Bytes := List UInt8

/-- Types declared outside `generic.go` and used by it. -/
structure Decls where
  /-- The type `common.Address`. -/
  Address : Type
  /-- Go compares two `common.Address` values with `==`. -/
  addressEq : DecidableEq Address
  /-- All fields of `goethereum.ChainConfig` other than `DAOForkSupport`. -/
  GethFields : Type
  /-- The struct `multigeth.MultiGethChainConfig`; the file reads it only through an accessor. -/
  MultiGethChainConfig : Type
  /-- All fields of `parity.ParityChainSpec` other than the three read below. -/
  ParityFields : Type
  /-- Values of any implementation of `ctypes.ChainConfigurator` other than the three known ones. -/
  Foreign : Type
  /-- The non-nil `error` values that `json.Unmarshal` can return. -/
  JsonError : Type
  /-- The type `gjson.Result`. -/
  GjsonResult : Type

instance (D : Decls) : DecidableEq D.Address := D.addressEq

namespace goethereum

/-- The struct `goethereum.ChainConfig`, as far as `generic.go` reads it. -/
structure ChainConfig (D : Decls) where
  DAOForkSupport : Bool
  others : D.GethFields

end goethereum

namespace parity

/-- The struct behind `pc.Engine.Ethash.Params`. A nil pointer is `none`. -/
structure EthashParams (D : Decls) where
  DaoHardforkTransition : Option Nat
  DaoHardforkBeneficiary : Option D.Address
  DaoHardforkAccounts : List D.Address

/-- The struct behind `pc.Engine.Ethash`. -/
structure EthashEngine (D : Decls) where
  Params : EthashParams D

/-- The struct behind `pc.Engine`. -/
structure EngineSection (D : Decls) where
  Ethash : EthashEngine D

/-- The struct `parity.ParityChainSpec`, as far as `generic.go` reads it. -/
structure ParityChainSpec (D : Decls) where
  Engine : EngineSection D
  others : D.ParityFields

end parity

namespace ctypes

/-- A value of the interface type `ctypes.ChainConfigurator`, by dynamic type.
`nil` is the nil interface value.  The three pointer constructors carry the
pointee: a typed nil pointer is not a configuration and is not modelled. -/
inductive ChainConfigurator (D : Decls) where
  | nil
  | goethereum (gc : goethereum.ChainConfig D)
  | multigeth (mg : D.MultiGethChainConfig)
  | parity (pc : parity.ParityChainSpec D)
  | foreign (x : D.Foreign)

end ctypes

open ctypes

/-- A value of the Go interface `error`.  `errorString s` is what
`errors.New(s)` returns; `ofUnmarshal e` is the value `e` that
`json.Unmarshal` returned, itself, seen at type `error`.  `errors.New`
allocates, so its result is a different value from every error a callee
handed back. -/
inductive GoError (D : Decls) where
  | errorString (s : String)
  | ofUnmarshal (e : D.JsonError)

/-- Functions and constants declared outside `generic.go` and used by it. -/
structure Env (D : Decls) where
  /-- The accessor `(*MultiGethChainConfig).GetEthashEIP779Transition`; `none` is a nil result. -/
  GetEthashEIP779Transition : D.MultiGethChainConfig → Option Nat
  /-- The constant `vars.DAORefundContract`. -/
  DAORefundContract : D.Address
  /-- The value of `vars.DAODrainList()`. -/
  DAODrainList : List D.Address
  /-- The function `gjson.GetBytes`. -/
  GetBytes : Bytes → String → D.GjsonResult
  /-- The method `gjson.Result.Exists`. -/
  Exists : D.GjsonResult → Bool
  /-- The call `json.Unmarshal(input, c)` with `c = &parity.ParityChainSpec{}`:
  the content of `c` after the call and the error returned (`none` is nil). -/
  UnmarshalParity : Bytes → parity.ParityChainSpec D × Option D.JsonError
  /-- The call `json.Unmarshal(input, c)` with `c = &multigeth.MultiGethChainConfig{}`. -/
  UnmarshalMultiGeth : Bytes → D.MultiGethChainConfig × Option D.JsonError
  /-- The call `json.Unmarshal(input, c)` with `c = &goethereum.ChainConfig{}`. -/
  UnmarshalGoethereum : Bytes → goethereum.ChainConfig D × Option D.JsonError

/-! ## The adapter -/

/-- The struct `GenericCC`: it embeds one `ctypes.ChainConfigurator`. -/
structure GenericCC (D : Decls) where
  ChainConfigurator : ChainConfigurator D

/-- The function `AsGenericCC`. -/
def AsGenericCC {D : Decls} (c : ChainConfigurator D) : GenericCC D :=
  ⟨c⟩

/-- The ways a call can panic. -/
inductive Panic (D : Decls) where
  /-- The call `panic(fmt.Sprintf("uimplemented DAO logic, config: %v", c.ChainConfigurator))`. -/
  | unimplementedDAOLogic (config : ChainConfigurator D)
  /-- The runtime panic of dereferencing a nil pointer. -/
  | nilDereference

/-- The Go expression `*p`. -/
def deref {D : Decls} {α : Type} : Option α → Except (Panic D) α
  | some a => .ok a
  | none => .error .nilDereference

/-- The method `GenericCC.DAOSupport`.  The three type assertions are the
three known constructors; `&&` evaluates its right operand only when the left
one is true. -/
def GenericCC.DAOSupport {D : Decls} (env : Env D) (c : GenericCC D) : Except (Panic D) Bool :=
  match c.ChainConfigurator with
  | .goethereum gc => .ok gc.DAOForkSupport
  | .multigeth mg => .ok ((env.GetEthashEIP779Transition mg).isSome)
  | .parity pc =>
    if pc.Engine.Ethash.Params.DaoHardforkTransition.isSome then
      if pc.Engine.Ethash.Params.DaoHardforkBeneficiary.isSome then
        match deref pc.Engine.Ethash.Params.DaoHardforkBeneficiary with
        | .error p => .error p
        | .ok b =>
          if b = env.DAORefundContract then
            .ok (decide (pc.Engine.Ethash.Params.DaoHardforkAccounts.length = env.DAODrainList.length))
          else .ok false
      else .ok false
    else .ok false
  | other => .error (.unimplementedDAOLogic other)

/-! ## Schema markers -/

/-- The variable `paritySchemaKeysMust`. -/
def paritySchemaKeysMust : List String :=
  ["engine", "genesis.seal"]

/-- The variable `multigethSchemaMust`. -/
def multigethSchemaMust : List String :=
  ["networkId", "config.networkId", "eip2FBlock", "config.eip2FBlock"]

/-- The variable `goethereumSchemaMust`. -/
def goethereumSchemaMust : List String :=
  ["difficulty", "chainId", "config.chainId", "eip158Block", "config.eip158Block",
   "byzantiumBlock", "config.byzantiumBlock"]

/-- The three entries of the map `cases`, named by the type of their key. -/
inductive Variant where
  | parity
  | multigeth
  | goethereum
  deriving DecidableEq, Repr, Fintype

/-- The value stored in the map `cases` under each key. -/
def cases : Variant → List String
  | .parity => paritySchemaKeysMust
  | .multigeth => multigethSchemaMust
  | .goethereum => goethereumSchemaMust

/-- The dynamic type of a configurator, when it is one of the three known ones. -/
def variantOf {D : Decls} : ChainConfigurator D → Option Variant
  | .parity _ => some .parity
  | .multigeth _ => some .multigeth
  | .goethereum _ => some .goethereum
  | _ => none

/-! ## The decoder -/

/-- The function `gjson.GetManyBytes`: one `GetBytes` result per path, in order. -/
def GetManyBytes {D : Decls} (env : Env D) (input : Bytes) (path : List String) : List D.GjsonResult :=
  path.map (env.GetBytes input)

/-- The loop `for _, g := range results` of `asMapHasAnyKey`, with the final return. -/
def asMapHasAnyKey.range {D : Decls} (env : Env D) : List D.GjsonResult → Bool × Option (GoError D)
  | [] => (false, none)
  | g :: results => if env.Exists g then (true, none) else asMapHasAnyKey.range env results

/-- The function `asMapHasAnyKey`. -/
def asMapHasAnyKey {D : Decls} (env : Env D) (input : Bytes) (keys : List String) :
    Bool × Option (GoError D) :=
  asMapHasAnyKey.range env (GetManyBytes env input keys)

/-- The call `json.Unmarshal(input, c)` for the key `c` of an entry of `cases`:
the configurator `c` after the call and the error returned. -/
def jsonUnmarshal {D : Decls} (env : Env D) (input : Bytes) :
    Variant → ChainConfigurator D × Option D.JsonError
  | .parity => (.parity (env.UnmarshalParity input).1, (env.UnmarshalParity input).2)
  | .multigeth => (.multigeth (env.UnmarshalMultiGeth input).1, (env.UnmarshalMultiGeth input).2)
  | .goethereum => (.goethereum (env.UnmarshalGoethereum input).1, (env.UnmarshalGoethereum input).2)

/-- The calls `UnmarshalChainConfigurator` makes, in the order it makes them. -/
inductive Call where
  /-- The call `asMapHasAnyKey(input, fn)` for an entry of `cases`. -/
  | probe (v : Variant)
  /-- The call `json.Unmarshal(input, c)` for an entry of `cases`. -/
  | decode (v : Variant)
  deriving DecidableEq, Repr

/-- The error made by `errors.New("invalid configurator schema")`. -/
def InvalidSchema {D : Decls} : GoError D :=
  .errorString "invalid configurator schema"

/-- The body of `UnmarshalChainConfigurator` from the `for ... range cases`
loop on, for the entries still to visit: the pair it returns, and the calls it
made on the way. -/
def UnmarshalChainConfigurator.range {D : Decls} (env : Env D) (input : Bytes) :
    List Variant → (ChainConfigurator D × Option (GoError D)) × List Call
  | [] => ((.nil, some InvalidSchema), [])
  | v :: rest =>
    match asMapHasAnyKey env input (cases v) with
    | (_, some err) => ((.nil, some err), [.probe v])
    | (true, none) =>
      match jsonUnmarshal env input v with
      | (_, some err) => ((.nil, some (.ofUnmarshal err)), [.probe v, .decode v])
      | (c, none) => ((c, none), [.probe v, .decode v])
    | (false, none) =>
      ((UnmarshalChainConfigurator.range env input rest).1,
        .probe v :: (UnmarshalChainConfigurator.range env input rest).2)

/-- The function `UnmarshalChainConfigurator`.  Go visits the entries of a map
in an order of its choosing; `order` is the order of this call. -/
def UnmarshalChainConfigurator {D : Decls} (env : Env D) (order : List Variant) (input : Bytes) :
    ChainConfigurator D × Option (GoError D) :=
  (UnmarshalChainConfigurator.range env input order).1

/-- The calls made by `UnmarshalChainConfigurator`. -/
def UnmarshalChainConfigurator.calls {D : Decls} (env : Env D) (order : List Variant)
    (input : Bytes) : List Call :=
  (UnmarshalChainConfigurator.range env input order).2

/-- A `range` over the map `cases` visits each of its three entries once. -/
def VisitOrder (order : List Variant) : Prop :=
  order.Perm [.parity, .multigeth, .goethereum]

instance (order : List Variant) : Decidable (VisitOrder order) := by
  unfold VisitOrder; infer_instance

/-- Whether some marker path of a variant exists in the input. -/
def hasMarker {D : Decls} (env : Env D) (input : Bytes) (v : Variant) : Bool :=
  (cases v).any (fun k => env.Exists (env.GetBytes input k))

/-- The first variant, in visit order, one of whose marker paths exists in the input. -/
def selected {D : Decls} (env : Env D) (input : Bytes) (order : List Variant) : Option Variant :=
  order.find? (hasMarker env input)

/-! ## The adapter with its effect on the configuration -/

/-- Modelled from the spec: the body of the accessor
`(*MultiGethChainConfig).GetEthashEIP779Transition` is not in `generic.go`.
The spec has the fork activations "queried through a getter" and the adapter
"purely a read-side computation": a call yields the accessor's value and
leaves the receiver as it was.  The pair is the value and the receiver after
the call. -/
def GetEthashEIP779Transition.call {D : Decls} (env : Env D) (mg : D.MultiGethChainConfig) :
    Option Nat × D.MultiGethChainConfig :=
  (env.GetEthashEIP779Transition mg, mg)

/-- The method `GenericCC.DAOSupport` with the configuration behind the
receiver threaded through: what the call yields, and the wrapped configuration
after the call.  The receiver is a value, the body holds no assignment, the
go-ethereum and parity branches read fields, and the multi-geth branch calls
the accessor on the configuration. -/
def GenericCC.DAOSupport.exec {D : Decls} (env : Env D) (c : GenericCC D) :
    Except (Panic D) Bool × GenericCC D :=
  match c.ChainConfigurator with
  | .goethereum gc => (.ok gc.DAOForkSupport, ⟨.goethereum gc⟩)
  | .multigeth mg =>
    ((.ok (GetEthashEIP779Transition.call env mg).1.isSome),
      ⟨.multigeth (GetEthashEIP779Transition.call env mg).2⟩)
  | .parity pc => (GenericCC.DAOSupport env ⟨.parity pc⟩, ⟨.parity pc⟩)
  | other => (.error (.unimplementedDAOLogic other), ⟨other⟩)

/-! ## Flat and nested marker keys -/

/-- Whether a key path is in flat form: it does not start with `config.`. -/
def isFlat (k : String) : Bool :=
  k.data.take 7 != "config.".data

/-! ## A concrete instance

Sample documents, with the answers of `gjson` and `encoding/json` on them
tabulated. -/

/-- The bytes of an ASCII string. -/
def ascii (s : String) : Bytes :=
  s.data.map (fun c => c.toNat.toUInt8)

/-- A multi-geth configuration with three of its fields. -/
structure SampleMultiGeth where
  NetworkID : Nat
  ChainID : Option Nat
  DAOForkBlock : Option Nat
  deriving DecidableEq, Repr

/-- Sample instance of the outside types. -/
def sampleDecls : Decls where
  Address := Nat
  addressEq := inferInstance
  GethFields := Option Nat
  MultiGethChainConfig := SampleMultiGeth
  ParityFields := Unit
  Foreign := Unit
  JsonError := String
  GjsonResult := Bool

/-- The document with the keys `networkId` and `chainId`, both numbers. -/
def docTwoFamilies : Bytes :=
  ascii "\x7b\"networkId\":1,\"chainId\":1\x7d"

/-- The document with an empty `engine` object and a `chainId` that is not a number. -/
def docBadChainId : Bytes :=
  ascii "\x7b\"engine\":\x7b\x7d,\"chainId\":\"x\"\x7d"

/-- The document whose only key is `engine`, an empty object. -/
def docEngineOnly : Bytes :=
  ascii "\x7b\"engine\":\x7b\x7d\x7d"

/-- The empty JSON object. -/
def docEmptyObject : Bytes :=
  ascii "\x7b\x7d"

/-- The error of `math/big` on the JSON string `"x"`. -/
def sampleDecodeError : String :=
  "math/big: cannot unmarshal \"\\\"x\\\"\" into a *big.Int"

/-- The zero value of the sample `parity.ParityChainSpec`. -/
def zeroParity : parity.ParityChainSpec sampleDecls :=
  ⟨⟨⟨⟨none, none, []⟩⟩⟩, ()⟩

/-- Sample instance of the outside functions and constants. -/
def sampleEnv : Env sampleDecls where
  GetEthashEIP779Transition := fun mg => mg.DAOForkBlock
  DAORefundContract := (0xbf4ed7b27f1d666546e30d74d50d173d20bca754 : Nat)
  DAODrainList := ([0xd4fe7bc31cedb7bfb8a345f31e668033056b2728,
    0xb3fb0e5aba0e20e5c49d252dfd30e102b171a425] : List Nat)
  GetBytes := fun input path =>
    if input = docTwoFamilies then decide (path ∈ ["networkId", "chainId"])
    else if input = docBadChainId then decide (path ∈ ["engine", "chainId"])
    else if input = docEngineOnly then decide (path = "engine")
    else false
  Exists := fun (r : Bool) => r
  UnmarshalParity := fun _ => (zeroParity, none)
  UnmarshalMultiGeth := fun input =>
    if input = docTwoFamilies then (⟨1, some 1, none⟩, none)
    else if input = docBadChainId then
      (⟨0, none, none⟩, some sampleDecodeError)
    else (⟨0, none, none⟩, none)
  UnmarshalGoethereum := fun input =>
    if input = docTwoFamilies then (⟨false, some 1⟩, none)
    else if input = docBadChainId then
      (⟨false, none⟩, some sampleDecodeError)
    else (⟨false, none⟩, none)

/-- A parity configuration with the DAO fork at block 1920000, the sample
refund contract as beneficiary and the sample drain list as accounts. -/
def parityDrain : parity.ParityChainSpec sampleDecls :=
  ⟨⟨⟨⟨some 1920000, some sampleEnv.DAORefundContract, sampleEnv.DAODrainList⟩⟩⟩, ()⟩

/-- The same configuration with two other addresses as accounts. -/
def parityOtherAccounts : parity.ParityChainSpec sampleDecls :=
  ⟨⟨⟨⟨some 1920000, some sampleEnv.DAORefundContract, [(1 : Nat), (2 : Nat)]⟩⟩⟩, ()⟩

/-! ## Lemmas on the two loops -/

section Loops

variable {D : Decls} (env : Env D) (input : Bytes)

theorem asMapHasAnyKey_range_eq (rs : List D.GjsonResult) :
    asMapHasAnyKey.range env rs = (rs.any env.Exists, none) := by
  induction rs with
  | nil => rfl
  | cons g rs ih =>
    cases hg : env.Exists g <;> simp [asMapHasAnyKey.range, hg, ih]

theorem asMapHasAnyKey_eq (keys : List String) :
    asMapHasAnyKey env input keys
      = (keys.any (fun k => env.Exists (env.GetBytes input k)), none) := by
  have h : ∀ l : List String, (l.map (env.GetBytes input)).any env.Exists
      = l.any (fun k => env.Exists (env.GetBytes input k)) := by
    intro l
    induction l with
    | nil => rfl
    | cons k l ih => simp [List.any_cons, ih]
  simp [asMapHasAnyKey, GetManyBytes, asMapHasAnyKey_range_eq, h]

theorem asMapHasAnyKey_cases (v : Variant) :
    asMapHasAnyKey env input (cases v) = (hasMarker env input v, none) := by
  simp [asMapHasAnyKey_eq, hasMarker]

theorem range_cons_skip (v : Variant) (rest : List Variant) (h : hasMarker env input v = false) :
    UnmarshalChainConfigurator.range env input (v :: rest)
      = ((UnmarshalChainConfigurator.range env input rest).1,
          .probe v :: (UnmarshalChainConfigurator.range env input rest).2) := by
  simp [UnmarshalChainConfigurator.range, asMapHasAnyKey_cases, h]

theorem range_cons_fail (v : Variant) (rest : List Variant) (h : hasMarker env input v = true)
    (e : D.JsonError) (he : (jsonUnmarshal env input v).2 = some e) :
    UnmarshalChainConfigurator.range env input (v :: rest)
      = ((.nil, some (.ofUnmarshal e)), [.probe v, .decode v]) := by
  rcases hj : jsonUnmarshal env input v with ⟨c, err⟩
  rw [hj] at he
  simp only at he
  subst he
  simp [UnmarshalChainConfigurator.range, asMapHasAnyKey_cases, h, hj]

theorem range_cons_ok (v : Variant) (rest : List Variant) (h : hasMarker env input v = true)
    (he : (jsonUnmarshal env input v).2 = none) :
    UnmarshalChainConfigurator.range env input (v :: rest)
      = (((jsonUnmarshal env input v).1, none), [.probe v, .decode v]) := by
  rcases hj : jsonUnmarshal env input v with ⟨c, err⟩
  rw [hj] at he
  simp only at he
  subst he
  simp [UnmarshalChainConfigurator.range, asMapHasAnyKey_cases, h, hj]

theorem range_of_selected_none (order : List Variant) (h : selected env input order = none) :
    UnmarshalChainConfigurator.range env input order
      = ((.nil, some InvalidSchema), order.map .probe) := by
  induction order with
  | nil => rfl
  | cons v rest ih =>
    have hv : hasMarker env input v = false := by
      cases hm : hasMarker env input v
      · rfl
      · simp [selected, List.find?, hm] at h
    have hr : selected env input rest = none := by
      simpa [selected, List.find?, hv] using h
    rw [range_cons_skip env input v rest hv, ih hr]
    rfl

end Loops

section Selection

variable {D : Decls} (env : Env D) (input : Bytes)

theorem selected_hasMarker (order : List Variant) (v : Variant)
    (h : selected env input order = some v) : hasMarker env input v = true := by
  unfold selected at h
  exact List.find?_some h

theorem selected_mem (order : List Variant) (v : Variant)
    (h : selected env input order = some v) : v ∈ order := by
  unfold selected at h
  exact List.mem_of_find?_eq_some h

theorem selected_eq_none_iff (order : List Variant) (hord : VisitOrder order) :
    selected env input order = none ↔ ∀ v, hasMarker env input v = false := by
  unfold selected
  rw [List.find?_eq_none]
  constructor
  · intro h v
    have hv : v ∈ order := by
      rw [List.Perm.mem_iff hord]
      cases v <;> simp
    simpa using h v hv
  · intro h v _
    simp [h v]

theorem selected_of_only (order : List Variant) (v : Variant) (hv : v ∈ order)
    (hm : hasMarker env input v = true)
    (hothers : ∀ w, w ≠ v → hasMarker env input w = false) :
    selected env input order = some v := by
  induction order with
  | nil => simp at hv
  | cons a rest ih =>
    by_cases ha : a = v
    · subst ha
      simp [selected, List.find?, hm]
    · have hav : hasMarker env input a = false := hothers a ha
      have hv2 : v ∈ rest := by
        rcases List.mem_cons.mp hv with h | h
        · exact absurd h.symm ha
        · exact h
      have := ih hv2
      simpa [selected, List.find?, hav] using this

theorem range_of_selected_fail (order : List Variant) (v : Variant)
    (h : selected env input order = some v)
    (e : D.JsonError) (he : (jsonUnmarshal env input v).2 = some e) :
    UnmarshalChainConfigurator.range env input order
      = ((.nil, some (.ofUnmarshal e)),
          (order.takeWhile (fun w => !hasMarker env input w)).map .probe
            ++ [.probe v, .decode v]) := by
  induction order with
  | nil => simp [selected] at h
  | cons a rest ih =>
    cases ha : hasMarker env input a
    · have hr : selected env input rest = some v := by
        simpa [selected, List.find?, ha] using h
      rw [range_cons_skip env input a rest ha, ih hr]
      simp [List.takeWhile, ha]
    · have hav : a = v := by
        simpa [selected, List.find?, ha] using h
      subst hav
      rw [range_cons_fail env input a rest ha e he]
      simp [List.takeWhile, ha]

theorem range_of_selected_ok (order : List Variant) (v : Variant)
    (h : selected env input order = some v)
    (he : (jsonUnmarshal env input v).2 = none) :
    UnmarshalChainConfigurator.range env input order
      = (((jsonUnmarshal env input v).1, none),
          (order.takeWhile (fun w => !hasMarker env input w)).map .probe
            ++ [.probe v, .decode v]) := by
  induction order with
  | nil => simp [selected] at h
  | cons a rest ih =>
    cases ha : hasMarker env input a
    · have hr : selected env input rest = some v := by
        simpa [selected, List.find?, ha] using h
      rw [range_cons_skip env input a rest ha, ih hr]
      simp [List.takeWhile, ha]
    · have hav : a = v := by
        simpa [selected, List.find?, ha] using h
      subst hav
      rw [range_cons_ok env input a rest ha he]
      simp [List.takeWhile, ha]

theorem variantOf_jsonUnmarshal (v : Variant) :
    variantOf (jsonUnmarshal env input v).1 = some v := by
  cases v <;> rfl

theorem no_marker_iff_keys :
    (∀ v, hasMarker env input v = false)
      ↔ ∀ k ∈ paritySchemaKeysMust ++ multigethSchemaMust ++ goethereumSchemaMust,
          env.Exists (env.GetBytes input k) = false := by
  constructor
  · intro h k hk
    have hp := h .parity
    have hm := h .multigeth
    have hg := h .goethereum
    simp only [hasMarker, cases, List.any_eq_false] at hp hm hg
    rcases List.mem_append.mp hk with hk | hk
    · rcases List.mem_append.mp hk with hk | hk
      · simpa using hp k hk
      · simpa using hm k hk
    · simpa using hg k hk
  · intro h v
    simp only [hasMarker, List.any_eq_false]
    intro k hk
    have : k ∈ paritySchemaKeysMust ++ multigethSchemaMust ++ goethereumSchemaMust := by
      cases v
      · exact List.mem_append.mpr (Or.inl (List.mem_append.mpr (Or.inl hk)))
      · exact List.mem_append.mpr (Or.inl (List.mem_append.mpr (Or.inr hk)))
      · exact List.mem_append.mpr (Or.inr hk)
    simp [h k this]

end Selection

/-! ## The decoder: which error, which variant -/

/-- C1: for every input and every visit order of the three map entries,
`UnmarshalChainConfigurator` returns the nil configuration together with the
"invalid configurator schema" error exactly when no key path of
`paritySchemaKeysMust`, `multigethSchemaMust` or `goethereumSchemaMust` exists
in the input; and when none exists, `json.Unmarshal` is called for no variant. -/
theorem UnmarshalChainConfigurator_invalidSchema_iff {D : Decls} (env : Env D)
    (order : List Variant) (hord : VisitOrder order) (input : Bytes) :
    (UnmarshalChainConfigurator env order input = (.nil, some InvalidSchema)
      ↔ ∀ k ∈ paritySchemaKeysMust ++ multigethSchemaMust ++ goethereumSchemaMust,
          env.Exists (env.GetBytes input k) = false)
    ∧ ((∀ k ∈ paritySchemaKeysMust ++ multigethSchemaMust ++ goethereumSchemaMust,
          env.Exists (env.GetBytes input k) = false)
        → ∀ v, Call.decode v ∉ UnmarshalChainConfigurator.calls env order input) := by
  rw [← no_marker_iff_keys env input, ← selected_eq_none_iff env input order hord]
  refine ⟨⟨?_, ?_⟩, ?_⟩
  · intro h
    cases hs : selected env input order with
    | none => rfl
    | some v =>
      exfalso
      cases he : (jsonUnmarshal env input v).2 with
      | none =>
        have := range_of_selected_ok env input order v hs he
        simp [UnmarshalChainConfigurator, this] at h
      | some e =>
        have := range_of_selected_fail env input order v hs e he
        simp [UnmarshalChainConfigurator, this, InvalidSchema] at h
  · intro hs
    simp [UnmarshalChainConfigurator, range_of_selected_none env input order hs]
  · intro hs v
    simp [UnmarshalChainConfigurator.calls, range_of_selected_none env input order hs]

/-- C1, at the empty JSON object visited in the order parity, multi-geth,
go-ethereum. -/
theorem UnmarshalChainConfigurator_invalidSchema_iff_witness :
    VisitOrder [.parity, .multigeth, .goethereum]
    ∧ UnmarshalChainConfigurator sampleEnv [.parity, .multigeth, .goethereum] docEmptyObject
        = (.nil, some InvalidSchema)
    ∧ ∀ v, Call.decode v ∉ UnmarshalChainConfigurator.calls sampleEnv
        [.parity, .multigeth, .goethereum] docEmptyObject :=
  ⟨by decide,
   (UnmarshalChainConfigurator_invalidSchema_iff sampleEnv [.parity, .multigeth, .goethereum]
      (by decide) docEmptyObject).1.2 (by decide),
   (UnmarshalChainConfigurator_invalidSchema_iff sampleEnv [.parity, .multigeth, .goethereum]
      (by decide) docEmptyObject).2 (by decide)⟩

/-- C2, refuted as stated: the document with the keys `networkId` and
`chainId` carries a multi-geth marker and decodes into the multi-geth type,
yet when the go-ethereum entry is visited first the configuration returned is
of the go-ethereum type. -/
theorem UnmarshalChainConfigurator_marker_not_sufficient :
    ¬ (∀ (V : Variant) (order : List Variant), VisitOrder order →
        hasMarker sampleEnv docTwoFamilies V = true →
        (jsonUnmarshal sampleEnv docTwoFamilies V).2 = none →
        variantOf (UnmarshalChainConfigurator sampleEnv order docTwoFamilies).1 = some V) := by
  intro h
  have h1 := h .multigeth [.goethereum, .multigeth, .parity] (by decide) (by decide) (by rfl)
  exact absurd h1 (by decide)

/-- C2, amended: for each variant `V` and every input in which a marker path
of `V` exists, no marker path of the other two variants exists, and which
decodes into the type of `V`, `UnmarshalChainConfigurator` returns the decoded
configuration of type `V` with a nil error, in whatever order the three map
entries are visited. -/
theorem UnmarshalChainConfigurator_only_variant {D : Decls} (env : Env D) (V : Variant)
    (input : Bytes)
    (hV : hasMarker env input V = true)
    (hothers : ∀ W, W ≠ V → hasMarker env input W = false)
    (hdec : (jsonUnmarshal env input V).2 = none)
    (order : List Variant) (hord : VisitOrder order) :
    UnmarshalChainConfigurator env order input = ((jsonUnmarshal env input V).1, none)
    ∧ variantOf (UnmarshalChainConfigurator env order input).1 = some V := by
  have hmem : V ∈ order := by
    rw [List.Perm.mem_iff hord]
    cases V <;> simp
  have hs := selected_of_only env input order V hmem hV hothers
  have hr := range_of_selected_ok env input order V hs hdec
  refine ⟨?_, ?_⟩
  · simp [UnmarshalChainConfigurator, hr]
  · simp [UnmarshalChainConfigurator, hr, variantOf_jsonUnmarshal]

/-- C2 amended, at the document whose only key is `engine`, visited in the
order go-ethereum, multi-geth, parity. -/
theorem UnmarshalChainConfigurator_only_variant_witness :
    hasMarker sampleEnv docEngineOnly .parity = true
    ∧ (∀ W, W ≠ Variant.parity → hasMarker sampleEnv docEngineOnly W = false)
    ∧ VisitOrder [.goethereum, .multigeth, .parity]
    ∧ variantOf (UnmarshalChainConfigurator sampleEnv [.goethereum, .multigeth, .parity]
        docEngineOnly).1 = some .parity :=
  ⟨by decide, by decide, by decide,
   (UnmarshalChainConfigurator_only_variant sampleEnv .parity docEngineOnly (by decide)
      (by decide) (by rfl) [.goethereum, .multigeth, .parity] (by decide)).2⟩

/-- C3, refuted as stated: on the document with an empty `engine` object and a
non-numeric `chainId`, visited go-ethereum first, the go-ethereum entry is
selected and its decode fails, and the error returned is that failure value
itself, not an error distinct from it. -/
theorem UnmarshalChainConfigurator_error_not_wrapped :
    ¬ (∀ (order : List Variant) (v : Variant) (e : sampleDecls.JsonError),
        selected sampleEnv docBadChainId order = some v →
        (jsonUnmarshal sampleEnv docBadChainId v).2 = some e →
        ∃ err, UnmarshalChainConfigurator sampleEnv order docBadChainId = (.nil, some err)
          ∧ err ≠ .ofUnmarshal e ∧ err ≠ InvalidSchema) := by
  intro h
  obtain ⟨err, h1, h2, _⟩ :=
    h [.goethereum, .parity, .multigeth] .goethereum sampleDecodeError (by decide) (by rfl)
  have h3 : UnmarshalChainConfigurator sampleEnv [.goethereum, .parity, .multigeth] docBadChainId
      = (.nil, some (.ofUnmarshal sampleDecodeError)) := by rfl
  rw [h3] at h1
  simp only [Prod.mk.injEq, Option.some.injEq, true_and] at h1
  exact h2 h1.symm

/-- C3, amended: when the first entry in visit order with an existing marker
path is `v` and `json.Unmarshal` into the type of `v` fails with `e`,
`UnmarshalChainConfigurator` returns the nil configuration and the error `e`
itself, which is not the "invalid configurator schema" error; the calls made
are the probes of the entries before `v`, the probe of `v` and the decode of
`v`, so no entry after `v` is probed or decoded. -/
theorem UnmarshalChainConfigurator_decode_failure {D : Decls} (env : Env D)
    (order : List Variant) (input : Bytes) (v : Variant) (e : D.JsonError)
    (hs : selected env input order = some v)
    (he : (jsonUnmarshal env input v).2 = some e) :
    UnmarshalChainConfigurator env order input = (.nil, some (.ofUnmarshal e))
    ∧ (GoError.ofUnmarshal e : GoError D) ≠ InvalidSchema
    ∧ UnmarshalChainConfigurator.calls env order input
        = (order.takeWhile (fun w => !hasMarker env input w)).map .probe
            ++ [.probe v, .decode v]
    ∧ ∀ w, Call.decode w ∈ UnmarshalChainConfigurator.calls env order input → w = v := by
  have hr := range_of_selected_fail env input order v hs e he
  refine ⟨?_, ?_, ?_, ?_⟩
  · simp [UnmarshalChainConfigurator, hr]
  · simp [InvalidSchema]
  · simp [UnmarshalChainConfigurator.calls, hr]
  · intro w hw
    simp only [UnmarshalChainConfigurator.calls, hr, List.mem_append, List.mem_map,
      List.mem_cons, List.mem_singleton] at hw
    rcases hw with ⟨_, _, h⟩ | h | h | h
    · cases h
    · cases h
    · cases h
      rfl
    · simp at h

/-- C3 amended, at the document with an empty `engine` object and a
non-numeric `chainId`: the parity markers exist too and the parity decode
would succeed, yet only go-ethereum is probed and decoded. -/
theorem UnmarshalChainConfigurator_decode_failure_witness :
    selected sampleEnv docBadChainId [.goethereum, .parity, .multigeth] = some .goethereum
    ∧ (jsonUnmarshal sampleEnv docBadChainId .goethereum).2 = some sampleDecodeError
    ∧ hasMarker sampleEnv docBadChainId .parity = true
    ∧ (jsonUnmarshal sampleEnv docBadChainId .parity).2 = none
    ∧ UnmarshalChainConfigurator sampleEnv [.goethereum, .parity, .multigeth] docBadChainId
        = (.nil, some (.ofUnmarshal sampleDecodeError))
    ∧ UnmarshalChainConfigurator.calls sampleEnv [.goethereum, .parity, .multigeth] docBadChainId
        = [.probe .goethereum, .decode .goethereum] :=
  ⟨by decide, by rfl, by decide, by rfl,
   (UnmarshalChainConfigurator_decode_failure sampleEnv [.goethereum, .parity, .multigeth]
      docBadChainId .goethereum sampleDecodeError (by decide) (by rfl)).1,
   (UnmarshalChainConfigurator_decode_failure sampleEnv [.goethereum, .parity, .multigeth]
      docBadChainId .goethereum sampleDecodeError (by decide) (by rfl)).2.2.1⟩

/-- C4, refuted as stated: the document with the keys `networkId` and
`chainId` decodes successfully under both visit orders below, into a
go-ethereum configuration under the first and a multi-geth configuration under
the second, so the two results are not equal. -/
theorem UnmarshalChainConfigurator_orders_disagree :
    ¬ (∀ (o₁ o₂ : List Variant), VisitOrder o₁ → VisitOrder o₂ →
        (UnmarshalChainConfigurator sampleEnv o₁ docTwoFamilies).2 = none →
        (UnmarshalChainConfigurator sampleEnv o₂ docTwoFamilies).2 = none →
        (UnmarshalChainConfigurator sampleEnv o₁ docTwoFamilies).1
          = (UnmarshalChainConfigurator sampleEnv o₂ docTwoFamilies).1) := by
  intro h
  have h1 := h [.goethereum, .multigeth, .parity] [.multigeth, .goethereum, .parity]
    (by decide) (by decide) (by rfl) (by rfl)
  have h2 := congrArg variantOf h1
  exact absurd h2 (by decide)

/-- C4, amended: for every input on which a run of `UnmarshalChainConfigurator`
succeeds, a second run whose visit order has the same first entry with an
existing marker path (in particular a run in the same order) succeeds too and
returns an equal configuration, of the same variant. -/
theorem UnmarshalChainConfigurator_same_selection {D : Decls} (env : Env D) (input : Bytes)
    (o₁ o₂ : List Variant)
    (hok : (UnmarshalChainConfigurator env o₁ input).2 = none)
    (hsel : selected env input o₁ = selected env input o₂) :
    (UnmarshalChainConfigurator env o₂ input).2 = none
    ∧ (UnmarshalChainConfigurator env o₁ input).1 = (UnmarshalChainConfigurator env o₂ input).1
    ∧ variantOf (UnmarshalChainConfigurator env o₁ input).1
        = variantOf (UnmarshalChainConfigurator env o₂ input).1 := by
  have heq : UnmarshalChainConfigurator env o₁ input = UnmarshalChainConfigurator env o₂ input := by
    cases hs : selected env input o₁ with
    | none =>
      have hs2 : selected env input o₂ = none := by rw [← hsel]; exact hs
      simp [UnmarshalChainConfigurator, range_of_selected_none env input _ hs,
        range_of_selected_none env input _ hs2]
    | some v =>
      have hs2 : selected env input o₂ = some v := by rw [← hsel]; exact hs
      cases he : (jsonUnmarshal env input v).2 with
      | none =>
        simp [UnmarshalChainConfigurator, range_of_selected_ok env input _ v hs he,
          range_of_selected_ok env input _ v hs2 he]
      | some e =>
        simp [UnmarshalChainConfigurator, range_of_selected_fail env input _ v hs e he,
          range_of_selected_fail env input _ v hs2 e he]
  rw [← heq]
  exact ⟨hok, rfl, rfl⟩

/-- C4 amended, at the document with the keys `networkId` and `chainId` and
two different visit orders that both meet go-ethereum first. -/
theorem UnmarshalChainConfigurator_same_selection_witness :
    (UnmarshalChainConfigurator sampleEnv [.goethereum, .multigeth, .parity] docTwoFamilies).2
      = none
    ∧ selected sampleEnv docTwoFamilies [.goethereum, .multigeth, .parity]
        = selected sampleEnv docTwoFamilies [.parity, .goethereum, .multigeth]
    ∧ (UnmarshalChainConfigurator sampleEnv [.goethereum, .multigeth, .parity] docTwoFamilies).1
        = (UnmarshalChainConfigurator sampleEnv [.parity, .goethereum, .multigeth]
            docTwoFamilies).1 :=
  ⟨by rfl, by decide,
   (UnmarshalChainConfigurator_same_selection sampleEnv docTwoFamilies
      [.goethereum, .multigeth, .parity] [.parity, .goethereum, .multigeth]
      (by rfl) (by decide)).2.1⟩

/-- C10: when the first entry in visit order with an existing marker path is
`v` (no entry before it in the order has one) and the input decodes into the
type of `v`, `UnmarshalChainConfigurator` returns that decoded configuration
with a nil error; its type is `v` and no other variant, and a marker path of
`v` exists in the input. -/
theorem UnmarshalChainConfigurator_first_match {D : Decls} (env : Env D)
    (order : List Variant) (input : Bytes) (v : Variant)
    (hs : selected env input order = some v)
    (hdec : (jsonUnmarshal env input v).2 = none) :
    UnmarshalChainConfigurator env order input = ((jsonUnmarshal env input v).1, none)
    ∧ (∀ w, variantOf (UnmarshalChainConfigurator env order input).1 = some w ↔ w = v)
    ∧ hasMarker env input v = true
    ∧ ∃ before after, order = before ++ v :: after
        ∧ ∀ w ∈ before, hasMarker env input w = false := by
  have hr := range_of_selected_ok env input order v hs hdec
  refine ⟨?_, ?_, selected_hasMarker env input order v hs, ?_⟩
  · simp [UnmarshalChainConfigurator, hr]
  · intro w
    simp only [UnmarshalChainConfigurator, hr, variantOf_jsonUnmarshal, Option.some.injEq]
    exact eq_comm
  · unfold selected at hs
    obtain ⟨_, as, bs, hab, hall⟩ := List.find?_eq_some.mp hs
    exact ⟨as, bs, hab, fun w hw => by simpa using hall w hw⟩

/-- C10, at the document with the keys `networkId` and `chainId`, which has
markers of two variants: with multi-geth visited before go-ethereum it yields
the multi-geth configuration. -/
theorem UnmarshalChainConfigurator_first_match_witness :
    hasMarker sampleEnv docTwoFamilies .multigeth = true
    ∧ hasMarker sampleEnv docTwoFamilies .goethereum = true
    ∧ selected sampleEnv docTwoFamilies [.parity, .multigeth, .goethereum] = some .multigeth
    ∧ UnmarshalChainConfigurator sampleEnv [.parity, .multigeth, .goethereum] docTwoFamilies
        = (.multigeth ⟨1, some 1, none⟩, none) :=
  ⟨by decide, by decide, by decide,
   (UnmarshalChainConfigurator_first_match sampleEnv [.parity, .multigeth, .goethereum]
      docTwoFamilies .multigeth (by decide) (by rfl)).1⟩

/-! ## The adapter: `DAOSupport` -/

theorem parity_support_eq {D : Decls} (env : Env D) (pc : parity.ParityChainSpec D) :
    (AsGenericCC (.parity pc)).DAOSupport env
      = .ok (decide (pc.Engine.Ethash.Params.DaoHardforkTransition ≠ none
          ∧ pc.Engine.Ethash.Params.DaoHardforkBeneficiary ≠ none
          ∧ pc.Engine.Ethash.Params.DaoHardforkBeneficiary = some env.DAORefundContract
          ∧ pc.Engine.Ethash.Params.DaoHardforkAccounts.length = env.DAODrainList.length)) := by
  cases ht : pc.Engine.Ethash.Params.DaoHardforkTransition <;>
  cases hb : pc.Engine.Ethash.Params.DaoHardforkBeneficiary <;>
    simp [GenericCC.DAOSupport, AsGenericCC, ht, hb, deref]
  split <;> simp_all

/-- C5: for every go-ethereum configuration `gc`, `DAOSupport` on
`AsGenericCC(gc)` returns the value of the flag `gc.DAOForkSupport`: true when
the flag is true, false when it is false (the zero value of an absent flag). -/
theorem DAOSupport_goethereum {D : Decls} (env : Env D) (gc : goethereum.ChainConfig D) :
    (AsGenericCC (.goethereum gc)).DAOSupport env = .ok gc.DAOForkSupport
    ∧ ((AsGenericCC (.goethereum gc)).DAOSupport env = .ok true ↔ gc.DAOForkSupport = true)
    ∧ ((AsGenericCC (.goethereum gc)).DAOSupport env = .ok false ↔ gc.DAOForkSupport = false) := by
  refine ⟨rfl, ?_, ?_⟩ <;>
    simp [GenericCC.DAOSupport, AsGenericCC]

/-- C6: for every multi-geth configuration `mg`, `DAOSupport` on
`AsGenericCC(mg)` returns true exactly when `mg.GetEthashEIP779Transition()`
is non-nil and false exactly when it is nil; the value behind a non-nil result
plays no part, so a transition at block 0 gives true. -/
theorem DAOSupport_multigeth {D : Decls} (env : Env D) (mg : D.MultiGethChainConfig) :
    (AsGenericCC (.multigeth mg)).DAOSupport env
      = .ok (env.GetEthashEIP779Transition mg).isSome
    ∧ ((AsGenericCC (.multigeth mg)).DAOSupport env = .ok true
        ↔ env.GetEthashEIP779Transition mg ≠ none)
    ∧ ((AsGenericCC (.multigeth mg)).DAOSupport env = .ok false
        ↔ env.GetEthashEIP779Transition mg = none)
    ∧ ((AsGenericCC (.multigeth mg)).DAOSupport env = .ok true
        ↔ ∃ n, env.GetEthashEIP779Transition mg = some n) := by
  cases h : env.GetEthashEIP779Transition mg <;>
    simp [GenericCC.DAOSupport, AsGenericCC, h]

/-- C7: for every parity configuration `pc`, `DAOSupport` on `AsGenericCC(pc)`
returns a boolean, never a panic, and it is true exactly when the four
conditions hold together: `DaoHardforkTransition` is non-nil,
`DaoHardforkBeneficiary` is non-nil, the beneficiary equals
`vars.DAORefundContract`, and `DaoHardforkAccounts` has the length of
`vars.DAODrainList()`; in every other case, an unset beneficiary included, it
is false. -/
theorem DAOSupport_parity {D : Decls} (env : Env D) (pc : parity.ParityChainSpec D) :
    (AsGenericCC (.parity pc)).DAOSupport env
      = .ok (decide (pc.Engine.Ethash.Params.DaoHardforkTransition ≠ none
          ∧ pc.Engine.Ethash.Params.DaoHardforkBeneficiary ≠ none
          ∧ pc.Engine.Ethash.Params.DaoHardforkBeneficiary = some env.DAORefundContract
          ∧ pc.Engine.Ethash.Params.DaoHardforkAccounts.length = env.DAODrainList.length))
    ∧ ((AsGenericCC (.parity pc)).DAOSupport env = .ok true
        ↔ (pc.Engine.Ethash.Params.DaoHardforkTransition ≠ none
          ∧ pc.Engine.Ethash.Params.DaoHardforkBeneficiary ≠ none
          ∧ pc.Engine.Ethash.Params.DaoHardforkBeneficiary = some env.DAORefundContract
          ∧ pc.Engine.Ethash.Params.DaoHardforkAccounts.length = env.DAODrainList.length))
    ∧ ((AsGenericCC (.parity pc)).DAOSupport env = .ok false
        ↔ ¬ (pc.Engine.Ethash.Params.DaoHardforkTransition ≠ none
          ∧ pc.Engine.Ethash.Params.DaoHardforkBeneficiary ≠ none
          ∧ pc.Engine.Ethash.Params.DaoHardforkBeneficiary = some env.DAORefundContract
          ∧ pc.Engine.Ethash.Params.DaoHardforkAccounts.length = env.DAODrainList.length)) := by
  refine ⟨parity_support_eq env pc, ?_, ?_⟩
  · rw [parity_support_eq]
    simp only [Except.ok.injEq, decide_eq_true_eq]
  · rw [parity_support_eq]
    simp only [Except.ok.injEq, decide_eq_false_iff_not]

/-- C8: two parity configurations that agree on `DaoHardforkTransition`, on
`DaoHardforkBeneficiary` and on the length of `DaoHardforkAccounts` have the
same `DAOSupport`; and a configuration with the transition set, the
beneficiary equal to `vars.DAORefundContract` and an accounts list of the
length of `vars.DAODrainList()` yields true whatever the entries of the list. -/
theorem DAOSupport_parity_accounts_length {D : Decls} (env : Env D)
    (pc₁ pc₂ : parity.ParityChainSpec D)
    (ht : pc₁.Engine.Ethash.Params.DaoHardforkTransition
      = pc₂.Engine.Ethash.Params.DaoHardforkTransition)
    (hb : pc₁.Engine.Ethash.Params.DaoHardforkBeneficiary
      = pc₂.Engine.Ethash.Params.DaoHardforkBeneficiary)
    (hl : pc₁.Engine.Ethash.Params.DaoHardforkAccounts.length
      = pc₂.Engine.Ethash.Params.DaoHardforkAccounts.length) :
    (AsGenericCC (.parity pc₁)).DAOSupport env = (AsGenericCC (.parity pc₂)).DAOSupport env
    ∧ (pc₁.Engine.Ethash.Params.DaoHardforkTransition ≠ none
        ∧ pc₁.Engine.Ethash.Params.DaoHardforkBeneficiary = some env.DAORefundContract
        ∧ pc₁.Engine.Ethash.Params.DaoHardforkAccounts.length = env.DAODrainList.length
        ↔ (AsGenericCC (.parity pc₁)).DAOSupport env = .ok true) := by
  refine ⟨?_, ?_⟩
  · rw [parity_support_eq, parity_support_eq, ht, hb, hl]
  · rw [parity_support_eq]
    simp only [Except.ok.injEq, decide_eq_true_eq]
    constructor
    · rintro ⟨h1, h2, h3⟩
      exact ⟨h1, by simp [h2], h2, h3⟩
    · rintro ⟨h1, _, h2, h3⟩
      exact ⟨h1, h2, h3⟩

/-- C8, at two sample configurations with the same transition and beneficiary
and two accounts each: the second has accounts other than the drain list and
still supports the DAO fork. -/
theorem DAOSupport_parity_accounts_length_witness :
    parityOtherAccounts.Engine.Ethash.Params.DaoHardforkAccounts
      ≠ sampleEnv.DAODrainList
    ∧ parityOtherAccounts.Engine.Ethash.Params.DaoHardforkAccounts.length
      = parityDrain.Engine.Ethash.Params.DaoHardforkAccounts.length
    ∧ (AsGenericCC (.parity parityOtherAccounts)).DAOSupport sampleEnv
      = (AsGenericCC (.parity parityDrain)).DAOSupport sampleEnv
    ∧ (AsGenericCC (.parity parityOtherAccounts)).DAOSupport sampleEnv = .ok true :=
  ⟨by decide, by decide,
   (DAOSupport_parity_accounts_length sampleEnv parityOtherAccounts parityDrain
      rfl rfl (by decide)).1,
   (DAOSupport_parity_accounts_length sampleEnv parityOtherAccounts parityDrain
      rfl rfl (by decide)).2.mp ⟨by decide, by rfl, by decide⟩⟩

/-- C9: `DAOSupport` panics with "uimplemented DAO logic" on the wrapped
configuration exactly when that configuration is the nil interface value or a
value of an implementation other than the three known ones, and it returns a
boolean exactly when the configuration is of one of the three known types. -/
theorem DAOSupport_panics_iff_unknown {D : Decls} (env : Env D) (c : ChainConfigurator D) :
    ((AsGenericCC c).DAOSupport env = .error (.unimplementedDAOLogic c)
        ↔ (c = .nil ∨ ∃ x, c = .foreign x))
    ∧ ((∃ p, (AsGenericCC c).DAOSupport env = .error p) ↔ (c = .nil ∨ ∃ x, c = .foreign x))
    ∧ ((∃ b, (AsGenericCC c).DAOSupport env = .ok b)
        ↔ ((∃ gc, c = .goethereum gc) ∨ (∃ mg, c = .multigeth mg) ∨ (∃ pc, c = .parity pc))) := by
  cases c with
  | nil => simp [GenericCC.DAOSupport, AsGenericCC]
  | foreign x => simp [GenericCC.DAOSupport, AsGenericCC]
  | goethereum gc => simp [GenericCC.DAOSupport, AsGenericCC]
  | multigeth mg => simp [GenericCC.DAOSupport, AsGenericCC]
  | parity pc => simp [parity_support_eq]

/-! ## The adapter: frame -/

/-- C11: for every wrapped configuration, the three known variants included,
the configuration wrapped after a call of `DAOSupport` is the configuration
wrapped before it, so each of its fields keeps its value; the call yields what
`DAOSupport` yields; and `AsGenericCC(c)` holds exactly `c`. -/
theorem DAOSupport_leaves_configuration {D : Decls} (env : Env D) (c : ChainConfigurator D) :
    (GenericCC.DAOSupport.exec env (AsGenericCC c)).2 = AsGenericCC c
    ∧ (GenericCC.DAOSupport.exec env (AsGenericCC c)).2.ChainConfigurator = c
    ∧ (GenericCC.DAOSupport.exec env (AsGenericCC c)).1 = (AsGenericCC c).DAOSupport env
    ∧ (AsGenericCC c).ChainConfigurator = c := by
  cases c <;> exact ⟨rfl, rfl, rfl, rfl⟩

/-! ## The marker lists -/

/-- C12, refuted as stated: `difficulty` is a flat key of
`goethereumSchemaMust`, and `config.difficulty` is not in that list. -/
theorem marker_sets_not_closed_under_config :
    ¬ (∀ (v : Variant) (k : String), k ∈ cases v → isFlat k = true →
        "config." ++ k ∈ cases v) := by
  intro h
  exact absurd (h .goethereum "difficulty" (by decide) (by decide)) (by decide)

/-- C12, amended: `multigethSchemaMust` holds `config.` + k for each of its
flat keys k; `goethereumSchemaMust` does so for each of its flat keys except
`difficulty`; the two keys of `paritySchemaKeysMust` are flat and that list
holds no `config.` form of them. -/
theorem marker_sets_config_forms :
    (∀ k ∈ multigethSchemaMust, isFlat k = true → "config." ++ k ∈ multigethSchemaMust)
    ∧ (∀ k ∈ goethereumSchemaMust, isFlat k = true → k ≠ "difficulty" →
        "config." ++ k ∈ goethereumSchemaMust)
    ∧ "difficulty" ∈ goethereumSchemaMust
    ∧ "config.difficulty" ∉ goethereumSchemaMust
    ∧ (∀ k ∈ paritySchemaKeysMust, isFlat k = true ∧ "config." ++ k ∉ paritySchemaKeysMust) := by
  decide

/-! ## The decoder: shape of the result -/

theorem jsonUnmarshal_ne_nil {D : Decls} (env : Env D) (input : Bytes) (v : Variant) :
    (jsonUnmarshal env input v).1 ≠ .nil := by
  cases v <;> simp [jsonUnmarshal]

theorem support_ok_of_variantOf {D : Decls} (env : Env D) (c : ChainConfigurator D)
    (v : Variant) (h : variantOf c = some v) :
    ∃ b, (AsGenericCC c).DAOSupport env = .ok b := by
  cases c with
  | nil => simp [variantOf] at h
  | foreign x => simp [variantOf] at h
  | goethereum gc => exact ⟨_, rfl⟩
  | multigeth mg => exact ⟨_, rfl⟩
  | parity pc => exact ⟨_, parity_support_eq env pc⟩

theorem result_trichotomy {D : Decls} (env : Env D) (order : List Variant) (input : Bytes) :
    (selected env input order = none
        ∧ UnmarshalChainConfigurator env order input = (.nil, some InvalidSchema))
    ∨ (∃ v e, selected env input order = some v
        ∧ (jsonUnmarshal env input v).2 = some e
        ∧ UnmarshalChainConfigurator env order input = (.nil, some (.ofUnmarshal e)))
    ∨ (∃ v, selected env input order = some v
        ∧ (jsonUnmarshal env input v).2 = none
        ∧ UnmarshalChainConfigurator env order input = ((jsonUnmarshal env input v).1, none)) := by
  cases hs : selected env input order with
  | none =>
    left
    exact ⟨rfl, by simp [UnmarshalChainConfigurator, range_of_selected_none env input order hs]⟩
  | some v =>
    right
    cases he : (jsonUnmarshal env input v).2 with
    | none =>
      right
      exact ⟨v, rfl, he, by
        simp [UnmarshalChainConfigurator, range_of_selected_ok env input order v hs he]⟩
    | some e =>
      left
      exact ⟨v, e, rfl, he, by
        simp [UnmarshalChainConfigurator, range_of_selected_fail env input order v hs e he]⟩

theorem any_exists_perm {D : Decls} (env : Env D) (input : Bytes) (keys keys₂ : List String)
    (h : keys₂.Perm keys) :
    keys₂.any (fun k => env.Exists (env.GetBytes input k))
      = keys.any (fun k => env.Exists (env.GetBytes input k)) := by
  rw [Bool.eq_iff_iff]
  simp only [List.any_eq_true]
  constructor
  · rintro ⟨k, hk, hx⟩
    exact ⟨k, (List.Perm.mem_iff h).mp hk, hx⟩
  · rintro ⟨k, hk, hx⟩
    exact ⟨k, (List.Perm.mem_iff h).mpr hk, hx⟩

/-- C13: for every input and every list of key paths, `asMapHasAnyKey`
returns true exactly when at least one listed path exists in the input and
false exactly when none does; a reordering of the list gives the same answer;
and the empty list gives false. -/
theorem asMapHasAnyKey_true_iff {D : Decls} (env : Env D) (input : Bytes)
    (keys keys₂ : List String) (hperm : keys₂.Perm keys) :
    ((asMapHasAnyKey env input keys).1 = true
        ↔ ∃ k ∈ keys, env.Exists (env.GetBytes input k) = true)
    ∧ ((asMapHasAnyKey env input keys).1 = false
        ↔ ∀ k ∈ keys, env.Exists (env.GetBytes input k) = false)
    ∧ asMapHasAnyKey env input keys₂ = asMapHasAnyKey env input keys
    ∧ asMapHasAnyKey env input [] = (false, none) := by
  refine ⟨?_, ?_, ?_, ?_⟩
  · simp [asMapHasAnyKey_eq]
  · simp [asMapHasAnyKey_eq]
  · rw [asMapHasAnyKey_eq, asMapHasAnyKey_eq, any_exists_perm env input keys keys₂ hperm]
  · rfl

/-- C13, at the document with the keys `networkId` and `chainId` and the
multi-geth markers in source order and reversed. -/
theorem asMapHasAnyKey_true_iff_witness :
    multigethSchemaMust.reverse.Perm multigethSchemaMust
    ∧ asMapHasAnyKey sampleEnv docTwoFamilies multigethSchemaMust.reverse
        = asMapHasAnyKey sampleEnv docTwoFamilies multigethSchemaMust
    ∧ (asMapHasAnyKey sampleEnv docTwoFamilies multigethSchemaMust).1 = true :=
  ⟨by decide,
   (asMapHasAnyKey_true_iff sampleEnv docTwoFamilies multigethSchemaMust
      multigethSchemaMust.reverse (by decide)).2.2.1,
   (asMapHasAnyKey_true_iff sampleEnv docTwoFamilies multigethSchemaMust
      multigethSchemaMust.reverse (by decide)).1.mpr ⟨"networkId", by decide, by decide⟩⟩

/-- C14: for every input and visit order on which `UnmarshalChainConfigurator`
returns a nil error, the configuration returned is not the nil interface, its
type is one of the three known variants, and `DAOSupport` on
`AsGenericCC` of it returns a boolean, not the "uimplemented DAO logic"
panic. -/
theorem UnmarshalChainConfigurator_result_supported {D : Decls} (env : Env D)
    (order : List Variant) (input : Bytes)
    (hok : (UnmarshalChainConfigurator env order input).2 = none) :
    (UnmarshalChainConfigurator env order input).1 ≠ .nil
    ∧ (∃ v, variantOf (UnmarshalChainConfigurator env order input).1 = some v)
    ∧ (∃ b, (AsGenericCC (UnmarshalChainConfigurator env order input).1).DAOSupport env = .ok b)
    ∧ ∀ p, (AsGenericCC (UnmarshalChainConfigurator env order input).1).DAOSupport env
        ≠ .error (.unimplementedDAOLogic p) := by
  rcases result_trichotomy env order input with ⟨_, h⟩ | ⟨v, e, _, _, h⟩ | ⟨v, _, _, h⟩
  · rw [h] at hok
    simp at hok
  · rw [h] at hok
    simp at hok
  · have hv : variantOf (UnmarshalChainConfigurator env order input).1 = some v := by
      rw [h]
      exact variantOf_jsonUnmarshal env input v
    obtain ⟨b, hb⟩ := support_ok_of_variantOf env _ v hv
    refine ⟨?_, ⟨v, hv⟩, ⟨b, hb⟩, ?_⟩
    · rw [h]
      exact jsonUnmarshal_ne_nil env input v
    · intro p
      rw [hb]
      simp

/-- C14, at the document with the keys `networkId` and `chainId` visited
multi-geth first: the multi-geth configuration decoded has no DAO fork block,
and `DAOSupport` returns false. -/
theorem UnmarshalChainConfigurator_result_supported_witness :
    (UnmarshalChainConfigurator sampleEnv [.multigeth, .parity, .goethereum] docTwoFamilies).2
      = none
    ∧ (AsGenericCC (UnmarshalChainConfigurator sampleEnv [.multigeth, .parity, .goethereum]
        docTwoFamilies).1).DAOSupport sampleEnv = .ok false
    ∧ ∃ v, variantOf (UnmarshalChainConfigurator sampleEnv [.multigeth, .parity, .goethereum]
        docTwoFamilies).1 = some v :=
  ⟨by rfl, by rfl,
   (UnmarshalChainConfigurator_result_supported sampleEnv [.multigeth, .parity, .goethereum]
      docTwoFamilies (by rfl)).2.1⟩

/-- C15: for every input and visit order, `UnmarshalChainConfigurator`
returns a non-nil configuration exactly when it returns a nil error, and the
nil configuration exactly when it returns a non-nil error; when the decode of
the selected variant fails, the configuration returned is nil whatever
`json.Unmarshal` left in its target. -/
theorem UnmarshalChainConfigurator_config_xor_error {D : Decls} (env : Env D)
    (order : List Variant) (input : Bytes) :
    ((UnmarshalChainConfigurator env order input).1 ≠ .nil
        ↔ (UnmarshalChainConfigurator env order input).2 = none)
    ∧ ((UnmarshalChainConfigurator env order input).1 = .nil
        ↔ (UnmarshalChainConfigurator env order input).2 ≠ none)
    ∧ (∀ v e, selected env input order = some v → (jsonUnmarshal env input v).2 = some e →
        (UnmarshalChainConfigurator env order input).1 = .nil
        ∧ (jsonUnmarshal env input v).1 ≠ .nil) := by
  rcases result_trichotomy env order input with ⟨hs, h⟩ | ⟨v, e, hs, he, h⟩ | ⟨v, hs, he, h⟩
  · refine ⟨?_, ?_, ?_⟩
    · simp [h]
    · simp [h]
    · intro w e hw
      rw [hs] at hw
      simp at hw
  · refine ⟨?_, ?_, ?_⟩
    · simp [h]
    · simp [h]
    · intro w e2 _ _
      exact ⟨by simp [h], jsonUnmarshal_ne_nil env input w⟩
  · have hne := jsonUnmarshal_ne_nil env input v
    refine ⟨?_, ?_, ?_⟩
    · simp [h, hne]
    · simp [h, hne]
    · intro w e2 hw he2
      rw [hs] at hw
      cases hw
      rw [he] at he2
      simp at he2

/-- C16: two different entries of the map `cases` share no key path: no path
of `paritySchemaKeysMust`, `multigethSchemaMust` or `goethereumSchemaMust`
occurs in another of the three lists; hence, when a single key path is all
that exists in an input, at most one variant has an existing marker. -/
theorem marker_sets_disjoint {D : Decls} (env : Env D) (input : Bytes) (v w : Variant)
    (hvw : v ≠ w) :
    (∀ k ∈ cases v, k ∉ cases w)
    ∧ (∀ k, (∀ k₂, env.Exists (env.GetBytes input k₂) = true → k₂ = k) →
        ¬ (hasMarker env input v = true ∧ hasMarker env input w = true)) := by
  have hdis : ∀ a b : Variant, a ≠ b → ∀ k ∈ cases a, k ∉ cases b := by decide
  refine ⟨hdis v w hvw, ?_⟩
  rintro k hk ⟨hv, hw⟩
  simp only [hasMarker, List.any_eq_true] at hv hw
  obtain ⟨k₁, hk₁, hx₁⟩ := hv
  obtain ⟨k₂, hk₂, hx₂⟩ := hw
  have e₁ := hk k₁ hx₁
  have e₂ := hk k₂ hx₂
  subst e₁
  subst e₂
  exact hdis v w hvw _ hk₁ hk₂

/-- C16, at the parity and go-ethereum entries and the document whose only
key is `engine`. -/
theorem marker_sets_disjoint_witness :
    Variant.parity ≠ Variant.goethereum
    ∧ (∀ k ∈ paritySchemaKeysMust, k ∉ goethereumSchemaMust)
    ∧ ¬ (hasMarker sampleEnv docEngineOnly .parity = true
        ∧ hasMarker sampleEnv docEngineOnly .goethereum = true) :=
  ⟨by decide,
   (marker_sets_disjoint sampleEnv docEngineOnly .parity .goethereum (by decide)).1,
   (marker_sets_disjoint sampleEnv docEngineOnly .parity .goethereum (by decide)).2 "engine"
     (by
      intro k₂ h
      by_contra hne
      have : sampleEnv.Exists (sampleEnv.GetBytes docEngineOnly k₂) = decide (k₂ = "engine") := by
        rfl
      rw [this] at h
      exact hne (by simpa using h))⟩

/-- C17: for every input and key list `asMapHasAnyKey` returns a nil error,
so the branch `if err != nil` after it in `UnmarshalChainConfigurator` is
never taken; every non-nil error `UnmarshalChainConfigurator` returns is the
"invalid configurator schema" error, when no entry has an existing marker, or
the error `json.Unmarshal` returned for the selected variant. -/
theorem UnmarshalChainConfigurator_error_sources {D : Decls} (env : Env D)
    (order : List Variant) (input : Bytes) (keys : List String) :
    (asMapHasAnyKey env input keys).2 = none
    ∧ (∀ v, (asMapHasAnyKey env input (cases v)).2 = none)
    ∧ (∀ err, (UnmarshalChainConfigurator env order input).2 = some err ↔
        ((err = InvalidSchema ∧ selected env input order = none)
        ∨ ∃ v e, selected env input order = some v
            ∧ (jsonUnmarshal env input v).2 = some e ∧ err = .ofUnmarshal e)) := by
  refine ⟨by rw [asMapHasAnyKey_eq], fun v => by rw [asMapHasAnyKey_eq], ?_⟩
  intro err
  rcases result_trichotomy env order input with ⟨hs, h⟩ | ⟨v, e, hs, he, h⟩ | ⟨v, hs, he, h⟩
  · rw [h, hs]
    simp [eq_comm]
  · rw [h, hs]
    constructor
    · intro h1
      right
      exact ⟨v, e, rfl, he, by simpa [eq_comm] using h1⟩
    · rintro (⟨_, h2⟩ | ⟨w, e2, hw, he2, herr⟩)
      · simp at h2
      · cases hw
        rw [he] at he2
        cases he2
        simp [herr]
  · rw [h, hs]
    constructor
    · intro h1
      simp at h1
    · rintro (⟨_, h2⟩ | ⟨w, e2, hw, he2, _⟩)
      · simp at h2
      · cases hw
        rw [he] at he2
        simp at he2
